import Mathlib

/-!
Verification of the artifact cache and analysis engine of the datadog-mcp
server (`server.py`).  The Python functions `_store_data`, `cleanup_cache`,
`analyze_data`, `_generate_summary`, `_calculate_stats` and `_analyze_trends`
are shallowly embedded below.  JSON values are modelled by the inductive type
`Json`; Python's dynamic operations (membership tests, indexing, `len`,
iteration, attribute access) are modelled by total Lean functions returning
`Except PyErr _`, mirroring the exceptions the interpreter would raise.
Numbers are modelled by `Rat` (exact arithmetic standing in for Python
floats); Python booleans participate in arithmetic as 0/1, as they do in
CPython.
-/

namespace Server

/-- A JSON value as produced by `json.loads`. -/
inductive Json where
  | null
  | bool (b : Bool)
  | num (q : Rat)
  | str (s : String)
  | arr (xs : List Json)
  | obj (kvs : List (String × Json))

/-- The Python exceptions that the embedded code can raise. -/
inductive PyErr where
  | typeError
  | keyError
  | indexError
  | attributeError
deriving DecidableEq, Repr

/-- First binding of a key in an association list, like a Python dict lookup
(our objects never carry duplicate keys when they come from `json.loads`). -/
def lookupKV (kvs : List (String × Json)) (k : String) : Option Json :=
  match kvs with
  | [] => none
  | kv :: rest => if kv.1 == k then some kv.2 else lookupKV rest k

/-- Python equality between a JSON value and a string: only equal strings
compare equal. -/
def jsonEqStr (v : Json) (s : String) : Bool :=
  match v with
  | .str t => t == s
  | _ => false

/-- Is this JSON value Python's `None`? -/
def isNull (v : Json) : Bool :=
  match v with
  | .null => true
  | _ => false

/-- Boolean list-prefix test. -/
def listPrefixB (pat l : List Char) : Bool :=
  match pat, l with
  | [], _ => true
  | _ :: _, [] => false
  | a :: as, b :: bs => a == b && listPrefixB as bs

/-- Boolean list-infix test. -/
def listInfixB (pat l : List Char) : Bool :=
  match l with
  | [] => pat.isEmpty
  | _ :: bs => listPrefixB pat l || listInfixB pat bs

/-- Python substring test `pat in hay` on strings. -/
def strContainsB (hay pat : String) : Bool :=
  listInfixB pat.toList hay.toList

/-- Suffix test on strings (the shape selected by the `"*.json"` glob). -/
def strEndsWithB (s pat : String) : Bool :=
  listPrefixB pat.toList.reverse s.toList.reverse

/-- Python's membership test `k in v` for a string `k`: key membership for
dicts, element membership for lists, substring test for strings, and a
`TypeError` for the remaining (non-container) values. -/
def pyContains (k : String) (v : Json) : Except PyErr Bool :=
  match v with
  | .obj kvs => .ok (lookupKV kvs k).isSome
  | .arr xs => .ok (xs.any (fun x => jsonEqStr x k))
  | .str s => .ok (strContainsB s k)
  | _ => .error .typeError

/-- Python's subscript `v[k]` with a string key `k`. -/
def pyGetItem (v : Json) (k : String) : Except PyErr Json :=
  match v with
  | .obj kvs =>
    match lookupKV kvs k with
    | some x => .ok x
    | none => .error .keyError
  | _ => .error .typeError

/-- Python's subscript `v[i]` with a non-negative integer index. -/
def pyIndex (v : Json) (i : Nat) : Except PyErr Json :=
  match v with
  | .arr xs =>
    match xs.get? i with
    | some x => .ok x
    | none => .error .indexError
  | .str s =>
    match s.toList.get? i with
    | some c => .ok (.str (String.mk [c]))
    | none => .error .indexError
  | .obj _ => .error .keyError
  | _ => .error .typeError

/-- Python's `len`. -/
def pyLen (v : Json) : Except PyErr Nat :=
  match v with
  | .arr xs => .ok xs.length
  | .obj kvs => .ok kvs.length
  | .str s => .ok s.length
  | _ => .error .typeError

/-- Python iteration `for x in v`: a list yields its elements, a dict its
keys, a string its one-character substrings; other values raise. -/
def pyIter (v : Json) : Except PyErr (List Json) :=
  match v with
  | .arr xs => .ok xs
  | .obj kvs => .ok (kvs.map (fun kv => .str kv.1))
  | .str s => .ok (s.toList.map (fun c => .str (String.mk [c])))
  | _ => .error .typeError

/-- Python truthiness of a JSON value. -/
def pyTruthy (v : Json) : Bool :=
  match v with
  | .null => false
  | .bool b => b
  | .num q => q != 0
  | .str s => s != ""
  | .arr xs => !xs.isEmpty
  | .obj kvs => !kvs.isEmpty
/-- The dict method `v.get k` with default `None`; non-dicts raise
`AttributeError`. -/
def pyGetDefault (v : Json) (k : String) (dflt : Json) : Except PyErr Json :=
  match v with
  | .obj kvs => .ok ((lookupKV kvs k).getD dflt)
  | _ => .error .attributeError

/-- Numeric view of a JSON value: numbers are themselves, Python booleans
count as 0/1 in arithmetic; everything else has no numeric view. -/
def asNum (v : Json) : Option Rat :=
  match v with
  | .num q => some q
  | .bool b => some (if b then 1 else 0)
  | _ => none

/-- Numeric view, raising `TypeError` like Python arithmetic on non-numbers. -/
def asNumE (v : Json) : Except PyErr Rat :=
  match asNum v with
  | some q => .ok q
  | none => .error .typeError

/-- Python's `v != 0` (never raises: non-numbers are simply unequal to 0). -/
def pyNeqZero (v : Json) : Bool :=
  match asNum v with
  | some q => q != 0
  | none => true

/-- Key and message strings used by the embedded code. -/
def kSeries : String := "series"

/-- The `pointlist` key. -/
def kPointlist : String := "pointlist"

/-- The `overall_state` key. -/
def kOverallState : String := "overall_state"

/-- The `events` key. -/
def kEvents : String := "events"

/-- The monitor state that counts as alerting. -/
def kAlert : String := "Alert"

/-- The glob suffix of cache artifacts. -/
def kDotJson : String := ".json"

/-- Error-propagating map over a list (the semantics of a Python list
comprehension, which stops at the first raised exception). -/
def mapME (f : Json → Except PyErr Json) : List Json → Except PyErr (List Json)
  | [] => .ok []
  | x :: xs =>
    match f x with
    | .error e => .error e
    | .ok y =>
      match mapME f xs with
      | .error e => .error e
      | .ok ys => .ok (y :: ys)

/-- Python's `round` at 2 decimal places: round half to even on the scaled
value (Python 3 banker's rounding, idealised to exact arithmetic). -/
def roundHalfEven (q : Rat) : Int :=
  let f : Int := q.floor
  let frac : Rat := q - (f : Rat)
  if frac < 1 / 2 then f
  else if 1 / 2 < frac then f + 1
  else if f % 2 = 0 then f else f + 1

/-- Rounding to two decimals, `round(x, 2)`. -/
def round2 (q : Rat) : Rat :=
  ((roundHalfEven (q * 100) : Int) : Rat) / 100

/-! ## The analyzers of `server.py` -/

/-- Result dict of `_generate_summary`; optional entries model keys that are
only sometimes added to the dict. -/
structure Summary where
  data_type : String
  record_count : Nat
  key_insights : List String
  total_data_points : Option Nat := none
  alerting_monitors : Option Nat := none
deriving DecidableEq, Repr

/-- Result dict of `_calculate_stats`. -/
structure Stats where
  calculated_at : String
  min_value : Option Rat := none
  max_value : Option Rat := none
  avg_value : Option Rat := none
  total_points : Option Nat := none
deriving DecidableEq, Repr

/-- Result dict of `_analyze_trends`. -/
structure Trends where
  trend_direction : String
  analyzed_at : String
  change_percentage : Option Rat := none
deriving DecidableEq, Repr

/-- The list comprehension `[p[1] for p in pl if p[1] is not None]`. -/
def filteredValues (pl : Json) : Except PyErr (List Json) :=
  match pyIter pl with
  | .error e => .error e
  | .ok ps =>
    match mapME (fun p => pyIndex p 1) ps with
    | .error e => .error e
    | .ok vs => .ok (vs.filter (fun v => !isNull v))

/-- The body of the metrics generator in `_generate_summary`:
`len(s.get("pointlist", []))` for one series entry. -/
def seriesPointCount (s : Json) : Except PyErr Nat :=
  match pyGetDefault s kPointlist (.arr []) with
  | .error e => .error e
  | .ok pl => pyLen pl

/-- Sum of `seriesPointCount` over the series list, stopping at the first
exception like the generator expression in the source. -/
def sumPointCounts : List Json → Except PyErr Nat
  | [] => .ok 0
  | s :: rest =>
    match seriesPointCount s with
    | .error e => .error e
    | .ok n =>
      match sumPointCounts rest with
      | .error e => .error e
      | .ok m => .ok (n + m)

/-- The generator `sum(1 for m in data if m.get("overall_state") == "Alert")`. -/
def countAlerting : List Json → Except PyErr Nat
  | [] => .ok 0
  | m :: rest =>
    match pyGetDefault m kOverallState .null with
    | .error e => .error e
    | .ok v =>
      match countAlerting rest with
      | .error e => .error e
      | .ok n => .ok ((if jsonEqStr v kAlert then 1 else 0) + n)

/-- Embedding of `_generate_summary` (server.py, lines 1083-1118). -/
def generate_summary (data : Json) : Except PyErr Summary :=
  let base : Summary := { data_type := "unknown", record_count := 0, key_insights := [] }
  match pyContains kSeries data with
  | .error e => .error e
  | .ok true =>
    match pyGetItem data kSeries with
    | .error e => .error e
    | .ok sv =>
      match pyLen sv with
      | .error e => .error e
      | .ok rc =>
        match pyIter sv with
        | .error e => .error e
        | .ok ss =>
          match sumPointCounts ss with
          | .error e => .error e
          | .ok total =>
            .ok { base with
                  data_type := "metrics", record_count := rc,
                  total_data_points := some total,
                  key_insights :=
                    if 1000 < total then ["Large dataset - consider aggregation"] else [] }
  | .ok false =>
    match data with
    | .arr (m0 :: rest) =>
      match pyContains kOverallState m0 with
      | .error e => .error e
      | .ok true =>
        match countAlerting (m0 :: rest) with
        | .error e => .error e
        | .ok alerting =>
          .ok { base with
                data_type := "monitors", record_count := (m0 :: rest).length,
                alerting_monitors := some alerting,
                key_insights :=
                  if 0 < alerting then
                    [toString alerting ++ " monitors currently alerting"] else [] }
      | .ok false => .ok base
    | _ =>
      match pyContains kEvents data with
      | .error e => .error e
      | .ok true =>
        match pyGetItem data kEvents with
        | .error e => .error e
        | .ok ev =>
          match pyLen ev with
          | .error e => .error e
          | .ok rc => .ok { base with data_type := "events", record_count := rc }
      | .ok false => .ok base

/-- The accumulation loop of `_calculate_stats`: for each series entry, if it
has a `pointlist` key, extend `all_values` with its null-filtered values. -/
def gatherValues : List Json → Except PyErr (List Json)
  | [] => .ok []
  | s :: rest =>
    match pyContains kPointlist s with
    | .error e => .error e
    | .ok b =>
      let here : Except PyErr (List Json) :=
        if b then
          match pyGetItem s kPointlist with
          | .error e => .error e
          | .ok pl => filteredValues pl
        else .ok []
      match here with
      | .error e => .error e
      | .ok vs =>
        match gatherValues rest with
        | .error e => .error e
        | .ok others => .ok (vs ++ others)

/-- Numeric view of a whole value list.  The `min`/`max`/`sum` aggregation of
`_calculate_stats` is modelled through this view: any non-numeric value makes
the aggregation raise `TypeError`, which is the net outcome in Python as well
(for values of mixed types `min` itself raises; for uniformly non-numeric
values `sum` raises after `min`/`max` — either way the `stats.update` call is
never reached and `TypeError` propagates). -/
def numsOf : List Json → Except PyErr (List Rat)
  | [] => .ok []
  | v :: vs =>
    match asNumE v with
    | .error e => .error e
    | .ok q =>
      match numsOf vs with
      | .error e => .error e
      | .ok qs => .ok (q :: qs)

/-- Python's `min` over the collected values (numeric view). -/
def pyMinNum (vs : List Json) : Except PyErr Rat :=
  match numsOf vs with
  | .error e => .error e
  | .ok [] => .error .typeError
  | .ok (n :: ns) => .ok (ns.foldl min n)

/-- Python's `max` over the collected values (numeric view). -/
def pyMaxNum (vs : List Json) : Except PyErr Rat :=
  match numsOf vs with
  | .error e => .error e
  | .ok [] => .error .typeError
  | .ok (n :: ns) => .ok (ns.foldl max n)

/-- Python's `sum` over the collected values (numeric view; exact). -/
def pySumNum (vs : List Json) : Except PyErr Rat :=
  match numsOf vs with
  | .error e => .error e
  | .ok qs => .ok qs.sum

/-- Embedding of `_calculate_stats` (server.py, lines 1121-1141).  `now` is
the `datetime.now(timezone.utc).isoformat()` timestamp, passed explicitly. -/
def calculate_stats (now : String) (data : Json) : Except PyErr Stats :=
  let base : Stats := { calculated_at := now }
  match pyContains kSeries data with
  | .error e => .error e
  | .ok false => .ok base
  | .ok true =>
    match pyGetItem data kSeries with
    | .error e => .error e
    | .ok sv =>
      match pyIter sv with
      | .error e => .error e
      | .ok ss =>
        match gatherValues ss with
        | .error e => .error e
        | .ok vs =>
          if vs.isEmpty then .ok base
          else
            match pyMinNum vs with
            | .error e => .error e
            | .ok mn =>
              match pyMaxNum vs with
              | .error e => .error e
              | .ok mx =>
                match pySumNum vs with
                | .error e => .error e
                | .ok s =>
                  .ok { base with
                        min_value := some mn, max_value := some mx,
                        avg_value := some (s / (vs.length : Rat)),
                        total_points := some vs.length }

/-- The part of `_analyze_trends` from `series = data["series"][0]` on:
everything after that line depends only on the first series entry. -/
def trendsFromSeries (now : String) (series : Json) : Except PyErr Trends :=
  let base : Trends := { trend_direction := "stable", analyzed_at := now }
  match pyContains kPointlist series with
  | .error e => .error e
  | .ok false => .ok base
  | .ok true =>
    match pyGetItem series kPointlist with
    | .error e => .error e
    | .ok pl =>
      match pyLen pl with
      | .error e => .error e
      | .ok n =>
        if n ≤ 1 then .ok base
        else
          match filteredValues pl with
          | .error e => .error e
          | .ok values =>
            if values.length < 2 then .ok base
            else
              let first := values.headD .null
              let last := values.getLastD .null
              if pyNeqZero first then
                match asNumE last, asNumE first with
                | .ok l, .ok f =>
                  let change := (l - f) / f * 100
                  .ok { trend_direction :=
                          if 10 < change then "increasing"
                          else if change < -10 then "decreasing"
                          else "stable",
                        analyzed_at := now,
                        change_percentage := some (round2 change) }
                | .error e, _ => .error e
                | _, .error e => .error e
              else .ok base

/-- Embedding of `_analyze_trends` (server.py, lines 1144-1169). -/
def analyze_trends (now : String) (data : Json) : Except PyErr Trends :=
  let base : Trends := { trend_direction := "stable", analyzed_at := now }
  match pyContains kSeries data with
  | .error e => .error e
  | .ok false => .ok base
  | .ok true =>
    match pyGetItem data kSeries with
    | .error e => .error e
    | .ok sv =>
      if pyTruthy sv then
        match pyIndex sv 0 with
        | .error e => .error e
        | .ok series => trendsFromSeries now series
      else .ok base

/-! ## The artifact store: `_store_data`, `analyze_data`, `cleanup_cache`

The cache directory is modelled as a list of file records in directory
order.  A file's JSON payload is kept in parsed form: `json.dumps` followed
by `json.loads` of the written bytes is the identity on the `Json` values
considered here, so the byte layer is elided.  The `unlinkOk` flag records
the filesystem's disposition towards deleting the file (false = `unlink`
raises `OSError`). -/

/-- One file of the cache directory. -/
structure FileRec where
  path : String
  mtime : Int
  content : Json
  unlinkOk : Bool

/-- The Python values a caller can hand to `_store_data`.  Numbers cover both
Python ints and floats; `datetime` carries the `str()` rendering that
`json.dumps(..., default=str)` will substitute; dict keys may be strings or
ints (non-string keys are coerced to strings by `json.dumps`). -/
inductive PyKey where
  | str (s : String)
  | int (n : Int)

mutual
inductive PyVal where
  | none
  | bool (b : Bool)
  | num (q : Rat)
  | str (s : String)
  | datetime (iso : String)
  | list (xs : PyList)
  | dict (kvs : PyDict)
inductive PyList where
  | nil
  | cons (x : PyVal) (xs : PyList)
inductive PyDict where
  | nil
  | cons (k : PyKey) (v : PyVal) (kvs : PyDict)
end

/-- String form of a dict key under `json.dumps` (non-string keys become
their string representation). -/
def keyStr : PyKey → String
  | .str s => s
  | .int n => toString n

/-- Insertion into an association list with Python-dict semantics: a repeated
key overwrites the value in place, a new key is appended.  This is how
`json.loads` builds a dict from the (possibly duplicated) keys of a JSON
object text. -/
def dictInsert (d : List (String × Json)) (k : String) (v : Json) : List (String × Json) :=
  if d.any (fun kv => kv.1 == k) then
    d.map (fun kv => if kv.1 == k then (k, v) else kv)
  else d ++ [(k, v)]

/-- Folding a key/value sequence into a Python dict. -/
def dedupKeys (kvs : List (String × Json)) : List (String × Json) :=
  kvs.foldl (fun d kv => dictInsert d kv.1 kv.2) []

mutual
/-- The JSON value obtained by `json.loads` after `json.dumps(x, default=str)`:
datetimes are coerced to their string representation, dict keys to strings
(with later duplicates overwriting earlier ones, as `loads` does). -/
def canonJson : PyVal → Json
  | .none => .null
  | .bool b => .bool b
  | .num q => .num q
  | .str s => .str s
  | .datetime iso => .str iso
  | .list xs => .arr (canonList xs)
  | .dict kvs => .obj (dedupKeys (canonKVs kvs))
def canonList : PyList → List Json
  | .nil => []
  | .cons x xs => canonJson x :: canonList xs
def canonKVs : PyDict → List (String × Json)
  | .nil => []
  | .cons k v kvs => (keyStr k, canonJson v) :: canonKVs kvs
end

mutual
/-- The evident embedding of a JSON value among the Python values. -/
def pyOfJson : Json → PyVal
  | .null => .none
  | .bool b => .bool b
  | .num q => .num q
  | .str s => .str s
  | .arr xs => .list (pyOfList xs)
  | .obj kvs => .dict (pyOfKVs kvs)
def pyOfList : List Json → PyList
  | [] => .nil
  | x :: xs => .cons (pyOfJson x) (pyOfList xs)
def pyOfKVs : List (String × Json) → PyDict
  | [] => .nil
  | (k, v) :: kvs => .cons (.str k) (pyOfJson v) (pyOfKVs kvs)
end

mutual
/-- A JSON value all of whose objects have pairwise distinct keys — the shape
`json.loads` actually produces. -/
def wfJson : Json → Bool
  | .null => true
  | .bool _ => true
  | .num _ => true
  | .str _ => true
  | .arr xs => wfJsonList xs
  | .obj kvs => ((kvs.map Prod.fst).Nodup : Bool) && wfJsonKVs kvs
def wfJsonList : List Json → Bool
  | [] => true
  | x :: xs => wfJson x && wfJsonList xs
def wfJsonKVs : List (String × Json) → Bool
  | [] => true
  | kv :: kvs => wfJson kv.2 && wfJsonKVs kvs
end

/-- The cache directory constant `DATA_DIR` of server.py. -/
def DATA_DIR : String := "datadog_cache"

/-- Embedding of `_store_data` (server.py, lines 116-126).  The encoding
timestamp `ts` and the 8-character random suffix `uid` are inputs (the
source draws them from the clock and `uuid.uuid4()`); the stored file's
modification time is the store instant. -/
def store_data (dir : List FileRec) (x : PyVal) (pfx : String) (ts : Int) (uid : String) :
    List FileRec × String :=
  let filepath := DATA_DIR ++ "/" ++ pfx ++ "_" ++ toString ts ++ "_" ++ uid ++ ".json"
  (⟨filepath, ts, canonJson x, true⟩ :: dir, filepath)

/-- Load error of the dispatcher: the artifact does not exist. -/
inductive LoadErr where
  | notFound
deriving DecidableEq, Repr

/-- Reading an artifact back: the existence check plus file read of
`analyze_data` (server.py, lines 1055-1060). -/
def loadData (dir : List FileRec) (filepath : String) : Except LoadErr Json :=
  match dir.find? (fun f => f.path == filepath) with
  | some f => .ok f.content
  | none => .error .notFound

/-- Deciding staleness against a cutoff: `st_mtime < cutoff_time`, strict. -/
def isStale (cutoff : Int) (f : FileRec) : Bool :=
  f.mtime < cutoff

/-- The scan loop of `cleanup_cache`: each `*.json` file strictly older than
the cutoff is unlinked; a failing `unlink` raises out of the loop, so the
already-scanned deletions persist and the remaining files are untouched.
Returns the directory after the call and either the deleted count or the
error outcome. -/
def cleanupRun (cutoff : Int) : List FileRec → List FileRec × Except Unit Nat
  | [] => ([], .ok 0)
  | f :: rest =>
    if strEndsWithB f.path kDotJson && isStale cutoff f then
      if f.unlinkOk then
        let (l, r) := cleanupRun cutoff rest
        (l, r.map (· + 1))
      else (f :: rest, .error ())
    else
      let (l, r) := cleanupRun cutoff rest
      (f :: l, r)

/-- Embedding of `cleanup_cache` (server.py, lines 722-743).  `listingOk`
models whether `DATA_DIR.glob` itself can read the directory; on any raised
exception the tool returns its error dict. -/
def cleanup_cache (listingOk : Bool) (now : Int) (older_than_hours : Int)
    (dir : List FileRec) : List FileRec × Except Unit Nat :=
  if listingOk then cleanupRun (now - older_than_hours * 3600) dir
  else (dir, .error ())

/-- The three result shapes an analysis can produce. -/
inductive AnalysisOut where
  | summary (s : Summary)
  | stats (s : Stats)
  | trends (t : Trends)
deriving DecidableEq, Repr

/-- Overall result of the `analyze_data` tool: either its error dict or the
`analysis_type`/`filepath`/`result` success dict. -/
inductive AnalyzeResult where
  | error (msg : String)
  | ok (analysis_type : String) (filepath : String) (result : AnalysisOut)
deriving DecidableEq, Repr

/-- The error dict text for a failed analysis. -/
def msgAnalysisFailed : String := "Analysis failed"

/-- The error dict text for a missing artifact. -/
def msgNotFound (filepath : String) : String := "Data file not found: " ++ filepath

/-- The error dict text for an unknown analysis mode. -/
def msgUnknownType (ty : String) : String := "Unknown analysis type: " ++ ty

/-- Wrapping one analyzer's outcome: a raised exception becomes the
"Analysis failed" error dict. -/
def wrapOut (ty fp : String) (r : Except PyErr AnalysisOut) : AnalyzeResult :=
  match r with
  | .ok out => .ok ty fp out
  | .error _ => .error msgAnalysisFailed

/-- Embedding of `analyze_data` (server.py, lines 1048-1080), parameterised
by the three analyzers so that non-invocation is expressible.  The existence
check comes first, then the dispatch on `analysis_type`. -/
def analyze_data_with (f₁ : Json → Except PyErr Summary)
    (f₂ : Json → Except PyErr Stats) (f₃ : Json → Except PyErr Trends)
    (dir : List FileRec) (filepath analysis_type : String) : AnalyzeResult :=
  match loadData dir filepath with
  | .error .notFound => .error (msgNotFound filepath)
  | .ok data =>
    if analysis_type == "summary" then wrapOut analysis_type filepath ((f₁ data).map .summary)
    else if analysis_type == "stats" then wrapOut analysis_type filepath ((f₂ data).map .stats)
    else if analysis_type == "trends" then wrapOut analysis_type filepath ((f₃ data).map .trends)
    else .error (msgUnknownType analysis_type)

/-- The `analyze_data` tool with the real analyzers plugged in. -/
def analyze_data (now : String) (dir : List FileRec) (filepath analysis_type : String) :
    AnalyzeResult :=
  analyze_data_with generate_summary (calculate_stats now) (analyze_trends now)
    dir filepath analysis_type

/-! ## Shape predicates for time-series artifacts

These spell out, on the `Json` side, which artifacts have the
`{"series": [{"pointlist": [[t, v], ...]}, ...]}` shape the analyzers are
specified against, and what value sequence that shape denotes. -/

/-- The value a well-formed point contributes to the null-filtered value
sequence: the second entry when it is a number, nothing when it is null. -/
def pointVal : Json → Option Rat
  | .arr (_ :: .num q :: _) => some q
  | _ => none

/-- A well-formed point: an array of at least two entries whose second entry
is a number or null. -/
def wfPointB : Json → Bool
  | .arr (_ :: .null :: _) => true
  | .arr (_ :: .num _ :: _) => true
  | _ => false

/-- A well-formed series entry: an object whose `pointlist`, if present, is
an array of well-formed points. -/
def wfSeriesB : Json → Bool
  | .obj skvs =>
    match lookupKV skvs kPointlist with
    | some (.arr ps) => ps.all wfPointB
    | some _ => false
    | none => true
  | _ => false

/-- The null-filtered value sequence of one series entry. -/
def seriesValues : Json → List Rat
  | .obj skvs =>
    match lookupKV skvs kPointlist with
    | some (.arr ps) => ps.filterMap pointVal
    | _ => []
  | _ => []

/-- The null-filtered value sequence flattened across all series entries. -/
def flatValues (ss : List Json) : List Rat :=
  (ss.map seriesValues).flatten

/-! ## Extraction lemmas -/

theorem mapME_idx_wf (ps : List Json) (h : ps.all wfPointB = true) :
    ∃ vs, mapME (fun p => pyIndex p 1) ps = .ok vs ∧
      vs.filter (fun v => !isNull v) = (ps.filterMap pointVal).map Json.num := by
  induction ps with
  | nil => exact ⟨[], rfl, rfl⟩
  | cons p rest ih =>
    simp only [List.all_cons, Bool.and_eq_true] at h
    obtain ⟨vs, h1, h2⟩ := ih h.2
    match p, h.1 with
    | .arr (t :: .null :: r), _ =>
      refine ⟨.null :: vs, ?_, ?_⟩
      · have hp : pyIndex (Json.arr (t :: Json.null :: r)) 1 = .ok .null := rfl
        simp only [mapME, hp, h1]
      · simpa [isNull, pointVal] using h2
    | .arr (t :: .num q :: r), _ =>
      refine ⟨.num q :: vs, ?_, ?_⟩
      · have hp : pyIndex (Json.arr (t :: Json.num q :: r)) 1 = .ok (.num q) := rfl
        simp only [mapME, hp, h1]
      · simpa [isNull, pointVal] using h2

theorem filteredValues_wf (ps : List Json) (h : ps.all wfPointB = true) :
    filteredValues (.arr ps) = .ok ((ps.filterMap pointVal).map Json.num) := by
  obtain ⟨vs, h1, h2⟩ := mapME_idx_wf ps h
  simp [filteredValues, pyIter, h1, h2]

theorem gatherValues_wf (ss : List Json) (h : ss.all wfSeriesB = true) :
    gatherValues ss = .ok ((flatValues ss).map Json.num) := by
  induction ss with
  | nil => rfl
  | cons s rest ih =>
    simp only [List.all_cons, Bool.and_eq_true] at h
    have ih2 := ih h.2
    have h1 := h.1
    match s, h1 with
    | .obj skvs, h1 =>
      simp only [wfSeriesB] at h1
      cases hlk : lookupKV skvs kPointlist with
      | none =>
        simp [gatherValues, pyContains, hlk, ih2, flatValues, seriesValues]
      | some pl =>
        match pl, (by rw [hlk] at h1; exact h1 : (match some pl with
            | some (.arr ps) => ps.all wfPointB
            | some _ => false
            | none => true) = true) with
        | .arr ps, hwf =>
          simp only [] at hwf
          simp [gatherValues, pyContains, pyGetItem, hlk, filteredValues_wf ps hwf, ih2,
            flatValues, seriesValues]

/-! ## Aggregation lemmas -/

theorem numsOf_map_num (l : List Rat) : numsOf (l.map Json.num) = .ok l := by
  induction l with
  | nil => rfl
  | cons q l ih => simp [numsOf, asNumE, asNum, ih]

theorem pyMinNum_map_num (n : Rat) (ns : List Rat) :
    pyMinNum (Json.num n :: ns.map Json.num) = .ok (ns.foldl min n) := by
  have h := numsOf_map_num (n :: ns)
  rw [List.map_cons] at h
  simp [pyMinNum, h]

theorem pyMaxNum_map_num (n : Rat) (ns : List Rat) :
    pyMaxNum (Json.num n :: ns.map Json.num) = .ok (ns.foldl max n) := by
  have h := numsOf_map_num (n :: ns)
  rw [List.map_cons] at h
  simp [pyMaxNum, h]

theorem pySumNum_map_num (l : List Rat) : pySumNum (l.map Json.num) = .ok l.sum := by
  simp [pySumNum, numsOf_map_num l]

theorem pySumNum_map_num_cons (n : Rat) (ns : List Rat) :
    pySumNum (Json.num n :: ns.map Json.num) = .ok (n + ns.sum) := by
  have h := pySumNum_map_num (n :: ns)
  rw [List.map_cons, List.sum_cons] at h
  exact h

theorem foldl_min_mem (ns : List Rat) : ∀ n : Rat, ns.foldl min n ∈ n :: ns := by
  induction ns with
  | nil => intro n; simp
  | cons b bs ih =>
    intro n
    have := ih (min n b)
    rcases List.mem_cons.mp this with h | h
    · rcases min_choice n b with hc | hc <;> rw [List.foldl_cons, h, hc] <;> simp
    · simp [List.foldl_cons, List.mem_cons.mpr (Or.inr (List.mem_cons.mpr (Or.inr h)))]

theorem foldl_min_le (ns : List Rat) : ∀ n : Rat, ∀ x ∈ n :: ns, ns.foldl min n ≤ x := by
  induction ns with
  | nil => intro n x hx; simp at hx; simp [hx]
  | cons b bs ih =>
    intro n x hx
    rw [List.foldl_cons]
    rcases List.mem_cons.mp hx with h | h
    · calc bs.foldl min (min n b) ≤ min n b := ih (min n b) _ (List.mem_cons_self _ _)
        _ ≤ n := min_le_left n b
        _ = x := h.symm
    · rcases List.mem_cons.mp h with h2 | h2
      · calc bs.foldl min (min n b) ≤ min n b := ih (min n b) _ (List.mem_cons_self _ _)
          _ ≤ b := min_le_right n b
          _ = x := h2.symm
      · exact ih (min n b) x (List.mem_cons.mpr (Or.inr h2))

theorem foldl_max_mem (ns : List Rat) : ∀ n : Rat, ns.foldl max n ∈ n :: ns := by
  induction ns with
  | nil => intro n; simp
  | cons b bs ih =>
    intro n
    have := ih (max n b)
    rcases List.mem_cons.mp this with h | h
    · rcases max_choice n b with hc | hc <;> rw [List.foldl_cons, h, hc] <;> simp
    · simp [List.foldl_cons, List.mem_cons.mpr (Or.inr (List.mem_cons.mpr (Or.inr h)))]

theorem foldl_max_ge (ns : List Rat) : ∀ n : Rat, ∀ x ∈ n :: ns, x ≤ ns.foldl max n := by
  induction ns with
  | nil => intro n x hx; simp at hx; simp [hx]
  | cons b bs ih =>
    intro n x hx
    rw [List.foldl_cons]
    rcases List.mem_cons.mp hx with h | h
    · calc x = n := h
        _ ≤ max n b := le_max_left n b
        _ ≤ bs.foldl max (max n b) := ih (max n b) _ (List.mem_cons_self _ _)
    · rcases List.mem_cons.mp h with h2 | h2
      · calc x = b := h2
          _ ≤ max n b := le_max_right n b
          _ ≤ bs.foldl max (max n b) := ih (max n b) _ (List.mem_cons_self _ _)
      · exact ih (max n b) x (List.mem_cons.mpr (Or.inr h2))

theorem length_mul_le_sum (l : List Rat) (m : Rat) (h : ∀ x ∈ l, m ≤ x) :
    (l.length : Rat) * m ≤ l.sum := by
  induction l with
  | nil => simp
  | cons a l ih =>
    have ha := h a (List.mem_cons_self a l)
    have hrec := ih (fun x hx => h x (List.mem_cons.mpr (Or.inr hx)))
    simp only [List.length_cons, List.sum_cons]
    push_cast
    linarith

theorem sum_le_length_mul (l : List Rat) (m : Rat) (h : ∀ x ∈ l, x ≤ m) :
    l.sum ≤ (l.length : Rat) * m := by
  induction l with
  | nil => simp
  | cons a l ih =>
    have ha := h a (List.mem_cons_self a l)
    have hrec := ih (fun x hx => h x (List.mem_cons.mpr (Or.inr hx)))
    simp only [List.length_cons, List.sum_cons]
    push_cast
    linarith

/-- Characterisation of `_calculate_stats` on a well-formed metrics
artifact. -/
theorem calculate_stats_wf (now : String) (kvs : List (String × Json)) (ss : List Json)
    (hlk : lookupKV kvs kSeries = some (.arr ss)) (hwf : ss.all wfSeriesB = true) :
    calculate_stats now (.obj kvs) =
      .ok (match flatValues ss with
           | [] => { calculated_at := now }
           | n :: ns =>
             { calculated_at := now,
               min_value := some (ns.foldl min n),
               max_value := some (ns.foldl max n),
               avg_value := some ((n :: ns).sum / ((n :: ns).length : Rat)),
               total_points := some (n :: ns).length }) := by
  have hgather := gatherValues_wf ss hwf
  cases hfv : flatValues ss with
  | nil =>
    rw [hfv] at hgather
    simp [calculate_stats, pyContains, pyGetItem, pyIter, hlk, hgather]
  | cons n ns =>
    rw [hfv] at hgather
    simp [calculate_stats, pyContains, pyGetItem, pyIter, hlk, hgather,
      pyMinNum_map_num, pyMaxNum_map_num, pySumNum_map_num_cons]

/-- `_calculate_stats` on an object artifact with no `series` key. -/
theorem calculate_stats_no_series (now : String) (kvs : List (String × Json))
    (hlk : lookupKV kvs kSeries = none) :
    calculate_stats now (.obj kvs) = .ok { calculated_at := now } := by
  simp [calculate_stats, pyContains, hlk]

theorem numsOf_length (vs : List Json) (qs : List Rat) (h : numsOf vs = .ok qs) :
    qs.length = vs.length := by
  induction vs generalizing qs with
  | nil => cases h; rfl
  | cons v vs ih =>
    simp only [numsOf] at h
    split at h
    · cases h
    · split at h
      · cases h
      · cases h
        simp [ih _ (by assumption)]

/-! ## Concrete artifacts used in witnesses and counterexamples -/

/-- A fixed timestamp string for instantiating the analyzers. -/
def tNow : String := "2025-01-01T00:00:00+00:00"

/-- The statistics scenario of the spec:
`{"series": [{"pointlist": [[1,10],[2,20]]},
             {"pointlist": [[1,30],[2,null],[3,40]]}]}`. -/
def exStatsSS : List Json :=
  [.obj [(kPointlist, .arr [.arr [.num 1, .num 10], .arr [.num 2, .num 20]])],
   .obj [(kPointlist, .arr [.arr [.num 1, .num 30], .arr [.num 2, .null],
                            .arr [.num 3, .num 40]])]]

/-- The object bindings of the statistics scenario artifact. -/
def exStatsKVs : List (String × Json) := [(kSeries, .arr exStatsSS)]

/-- An artifact whose `series` list is empty. -/
def emptySeriesKVs : List (String × Json) := [(kSeries, .arr [])]

/-! ## C5 and C10: the Statistics analyzer -/

/-- Concrete evaluation of the spec's statistics scenario. -/
theorem calculate_stats_example :
    calculate_stats tNow (.obj exStatsKVs) =
      .ok { calculated_at := tNow, min_value := some 10, max_value := some 40,
            avg_value := some 25, total_points := some 4 } := by
  have h := calculate_stats_wf tNow exStatsKVs exStatsSS rfl rfl
  have hfv : flatValues exStatsSS = 10 :: [20, 30, 40] := rfl
  rw [hfv] at h
  rw [h]
  norm_num [List.foldl, List.sum_cons, List.sum_nil, min_def, max_def]

/-- C5: for every artifact with a well-formed `series` list, the Statistics
analyzer computes minimum, maximum, unrounded arithmetic mean, and count over
the null-filtered value sequence flattened across all series; when that
flattened sequence is empty (series key absent, empty series list, or all
values null) the result carries only the computation timestamp; and the
spec's concrete scenario yields min=10, max=40, avg=25, total_points=4. -/
theorem c5_statistics :
    (∀ (now : String) (kvs : List (String × Json)),
      lookupKV kvs kSeries = none →
      calculate_stats now (.obj kvs) = .ok { calculated_at := now }) ∧
    (∀ (now : String) (kvs : List (String × Json)) (ss : List Json),
      lookupKV kvs kSeries = some (.arr ss) → ss.all wfSeriesB = true →
      ((flatValues ss = [] →
          calculate_stats now (.obj kvs) = .ok { calculated_at := now }) ∧
       (∀ (n : Rat) (ns : List Rat), flatValues ss = n :: ns →
          ∃ mn mx, calculate_stats now (.obj kvs) =
              .ok { calculated_at := now, min_value := some mn, max_value := some mx,
                    avg_value := some ((n :: ns).sum / ((n :: ns).length : Rat)),
                    total_points := some (n :: ns).length } ∧
            mn ∈ n :: ns ∧ mx ∈ n :: ns ∧ ∀ x ∈ n :: ns, mn ≤ x ∧ x ≤ mx))) ∧
    calculate_stats tNow (.obj exStatsKVs) =
      .ok { calculated_at := tNow, min_value := some 10, max_value := some 40,
            avg_value := some 25, total_points := some 4 } := by
  refine ⟨fun now kvs h => calculate_stats_no_series now kvs h, fun now kvs ss hlk hwf => ?_,
    calculate_stats_example⟩
  have hchar := calculate_stats_wf now kvs ss hlk hwf
  constructor
  · intro hfv
    rw [hfv] at hchar
    exact hchar
  · intro n ns hfv
    rw [hfv] at hchar
    refine ⟨ns.foldl min n, ns.foldl max n, hchar, foldl_min_mem ns n, foldl_max_mem ns n,
      fun x hx => ⟨foldl_min_le ns n x hx, foldl_max_ge ns n x hx⟩⟩

/-- Witness for C5: the hypotheses are satisfiable; the empty-series branch of
the theorem evaluated at a concrete artifact. -/
theorem c5_statistics_witness :
    calculate_stats tNow (.obj emptySeriesKVs) = .ok { calculated_at := tNow } :=
  ((c5_statistics.2.1 tNow emptySeriesKVs [] rfl rfl).1) rfl

/-- C10: every Statistics result carries either all four aggregate fields or
none of them, and when present the count is positive and the exact mean lies
between the minimum and the maximum. -/
theorem c10_stats_invariants (now : String) (data : Json) (r : Stats)
    (h : calculate_stats now data = .ok r) :
    (r.min_value.isSome ∧ r.max_value.isSome ∧ r.avg_value.isSome ∧ r.total_points.isSome ∧
     ∀ mn mx avg tp, r.min_value = some mn → r.max_value = some mx →
       r.avg_value = some avg → r.total_points = some tp →
       1 ≤ tp ∧ mn ≤ avg ∧ avg ≤ mx) ∨
    (r.min_value = none ∧ r.max_value = none ∧ r.avg_value = none ∧
     r.total_points = none) := by
  simp only [calculate_stats] at h
  split at h
  · cases h
  · cases h; right; exact ⟨rfl, rfl, rfl, rfl⟩
  · split at h
    · cases h
    · split at h
      · cases h
      · split at h
        · cases h
        · rename_i vs hgather
          split at h
          · cases h; right; exact ⟨rfl, rfl, rfl, rfl⟩
          · rename_i hne
            split at h
            · cases h
            · rename_i mn hmn
              split at h
              · cases h
              · rename_i mx hmx
                split at h
                · cases h
                · rename_i s hs
                  cases h
                  left
                  refine ⟨rfl, rfl, rfl, rfl, ?_⟩
                  intro mn2 mx2 avg tp hmn2 hmx2 havg htp
                  cases hmn2; cases hmx2; cases havg; cases htp
                  simp only [pyMinNum] at hmn
                  split at hmn
                  · cases hmn
                  · cases hmn
                  · rename_i n ns hnums
                    cases hmn
                    simp only [pyMaxNum, hnums] at hmx
                    cases hmx
                    simp only [pySumNum, hnums] at hs
                    cases hs
                    have hlen : (n :: ns).length = vs.length := numsOf_length vs (n :: ns) hnums
                    have hpos : (0 : Rat) < (vs.length : Rat) := by
                      rw [← hlen]
                      exact_mod_cast Nat.succ_pos ns.length
                    have hlb := length_mul_le_sum (n :: ns) (ns.foldl min n) (foldl_min_le ns n)
                    have hub := sum_le_length_mul (n :: ns) (ns.foldl max n) (foldl_max_ge ns n)
                    rw [hlen] at hlb hub
                    refine ⟨?_, ?_, ?_⟩
                    · have : vs ≠ [] := by
                        intro hnil
                        rw [hnil] at hne
                        simp at hne
                      have := List.length_pos.mpr this
                      omega
                    · rw [le_div_iff₀ hpos]
                      calc ns.foldl min n * (vs.length : Rat)
                          = (vs.length : Rat) * ns.foldl min n := by ring
                        _ ≤ (n :: ns).sum := hlb
                    · rw [div_le_iff₀ hpos]
                      calc (n :: ns).sum ≤ (vs.length : Rat) * ns.foldl max n := hub
                        _ = ns.foldl max n * (vs.length : Rat) := by ring

/-- Witness for C10: the invariant instantiated at the spec's statistics
scenario. -/
theorem c10_stats_invariants_witness :
    (((some 10 : Option Rat).isSome ∧ (some 40 : Option Rat).isSome ∧
      (some 25 : Option Rat).isSome ∧ (some 4 : Option Nat).isSome ∧
      ∀ mn mx avg tp, (some 10 : Option Rat) = some mn → (some 40 : Option Rat) = some mx →
        (some 25 : Option Rat) = some avg → (some 4 : Option Nat) = some tp →
        1 ≤ tp ∧ mn ≤ avg ∧ avg ≤ mx) ∨
     ((some 10 : Option Rat) = none ∧ (some 40 : Option Rat) = none ∧
      (some 25 : Option Rat) = none ∧ (some 4 : Option Nat) = none)) := by
  have h := c10_stats_invariants tNow (.obj exStatsKVs)
    { calculated_at := tNow, min_value := some 10, max_value := some 40,
      avg_value := some 25, total_points := some 4 } calculate_stats_example
  simpa using h

/-! ## C2 and C8: eviction -/

theorem cleanupRun_ok (cutoff : Int) (files : List FileRec)
    (hOk : files.all (fun f => f.unlinkOk) = true) :
    cleanupRun cutoff files =
      (files.filter (fun f => !(strEndsWithB f.path kDotJson && isStale cutoff f)),
       .ok (files.countP (fun f => strEndsWithB f.path kDotJson && isStale cutoff f))) := by
  induction files with
  | nil => rfl
  | cons f rest ih =>
    simp only [List.all_cons, Bool.and_eq_true] at hOk
    have ihr := ih hOk.2
    cases hc : (strEndsWithB f.path kDotJson && isStale cutoff f) with
    | true =>
      have hc2 := hc
      simp only [Bool.and_eq_true] at hc2
      obtain ⟨ha, hb⟩ := hc2
      simp [cleanupRun, hc, hOk.1, ihr, List.countP_cons, List.filter_cons, Except.map, ha, hb]
    | false =>
      have hor : strEndsWithB f.path kDotJson = false ∨ isStale cutoff f = false := by
        cases hA : strEndsWithB f.path kDotJson
        · exact Or.inl rfl
        · cases hB : isStale cutoff f
          · exact Or.inr rfl
          · rw [hA, hB] at hc; cases hc
      rcases hor with h | h <;>
        simp [cleanupRun, hc, ihr, List.countP_cons, List.filter_cons, h]

theorem nodup_map_inj {α β : Type _} (f : α → β) (l : List α) (h : (l.map f).Nodup) :
    ∀ a ∈ l, ∀ b ∈ l, f a = f b → a = b := by
  induction l with
  | nil => simp
  | cons x xs ih =>
    simp only [List.map_cons, List.nodup_cons] at h
    intro a ha b hb hab
    rcases List.mem_cons.mp ha with rfl | ha2
    · rcases List.mem_cons.mp hb with rfl | hb2
      · rfl
      · exact absurd (by rw [hab]; exact List.mem_map_of_mem f hb2) h.1
    · rcases List.mem_cons.mp hb with rfl | hb2
      · exact absurd (by rw [← hab]; exact List.mem_map_of_mem f ha2) h.1
      · exact ih h.2 a ha2 b hb2 hab

/-- C2: `Evict(N)` computes the cutoff `now - N*3600`, deletes exactly the
`*.json` artifacts whose modification time is strictly older than the cutoff,
returns the number deleted, and a subsequent load of any deleted path fails
with the not-found error. -/
theorem c2_evict (now hours : Int) (files : List FileRec)
    (hOk : files.all (fun f => f.unlinkOk) = true)
    (hJson : files.all (fun f => strEndsWithB f.path kDotJson) = true)
    (hNodup : (files.map FileRec.path).Nodup) :
    (cleanup_cache true now hours files).2 =
      .ok (files.countP (fun f => isStale (now - hours * 3600) f)) ∧
    (cleanup_cache true now hours files).1 =
      files.filter (fun f => !isStale (now - hours * 3600) f) ∧
    ∀ f ∈ files, isStale (now - hours * 3600) f = true →
      loadData (cleanup_cache true now hours files).1 f.path = .error .notFound := by
  have hrun := cleanupRun_ok (now - hours * 3600) files hOk
  rw [List.all_eq_true] at hJson
  have hcount : files.countP (fun f => strEndsWithB f.path kDotJson && isStale (now - hours * 3600) f) =
      files.countP (fun f => isStale (now - hours * 3600) f) := by
    apply List.countP_congr
    intro f hf
    rw [hJson f hf]
    simp
  have hfilter : files.filter (fun f => !(strEndsWithB f.path kDotJson && isStale (now - hours * 3600) f)) =
      files.filter (fun f => !isStale (now - hours * 3600) f) := by
    apply List.filter_congr
    intro f hf
    rw [hJson f hf]
    simp
  have hcc : cleanup_cache true now hours files = cleanupRun (now - hours * 3600) files := rfl
  refine ⟨by rw [hcc, hrun, hcount], by rw [hcc, hrun, hfilter], ?_⟩
  intro f hf hstale
  rw [hcc, hrun]
  simp only [hfilter]
  rw [loadData, List.find?_eq_none.mpr]
  intro g hg
  rw [List.mem_filter] at hg
  intro hpath
  have hgf : g = f := nodup_map_inj FileRec.path files hNodup g hg.1 f hf (by
    simpa using hpath)
  rw [hgf, hstale] at hg
  simp at hg

/-- A stale deletable artifact. -/
def pA : String := "metrics_0_aaaaaaaa.json"

/-- Another artifact path. -/
def pB : String := "events_0_bbbbbbbb.json"

/-- A third artifact path. -/
def pC : String := "logs_5000_cccccccc.json"

/-- A fourth artifact path. -/
def pD : String := "hosts_0_dddddddd.json"

/-- A stale artifact whose deletion fails. -/
def cexFileA : FileRec := ⟨pA, 0, .null, false⟩

/-- A stale artifact whose deletion succeeds. -/
def cexFileB : FileRec := ⟨pB, -10, .null, true⟩

/-- A fresh artifact. -/
def cexFileC : FileRec := ⟨pC, 5000, .null, true⟩

/-- A stale deletable artifact scanned before the failing one. -/
def cexFileD : FileRec := ⟨pD, 0, .null, true⟩

/-- The directory of the C8 counterexample: the first scanned artifact is
stale but cannot be deleted, the second is stale and deletable. -/
def cexDirC8 : List FileRec := [cexFileA, cexFileB]

/-- Counterexample to C8 as stated: with cutoff 3600 both files are stale and
`b`'s deletion would succeed, yet the failing deletion of `a` makes the whole
Evict call fail (error outcome) and the scan does not continue — `b` is still
present afterwards. -/
theorem c8_skip_counterexample :
    (cleanup_cache true 3600 0 cexDirC8).2 = .error () ∧
    (cleanup_cache true 3600 0 cexDirC8).1 = cexDirC8 ∧
    isStale (3600 - 0 * 3600) cexFileB = true ∧
    cexFileB.unlinkOk = true := ⟨rfl, rfl, rfl, rfl⟩

theorem cleanupRun_abort (cutoff : Int) (pre post : List FileRec) (f : FileRec)
    (hOk : pre.all (fun g => g.unlinkOk) = true)
    (hcond : (strEndsWithB f.path kDotJson && isStale cutoff f) = true)
    (hfail : f.unlinkOk = false) :
    cleanupRun cutoff (pre ++ f :: post) =
      (pre.filter (fun g => !(strEndsWithB g.path kDotJson && isStale cutoff g)) ++ f :: post,
       .error ()) := by
  induction pre with
  | nil => simp [cleanupRun, hcond, hfail]
  | cons g rest ih =>
    simp only [List.all_cons, Bool.and_eq_true] at hOk
    have ihr := ih hOk.2
    cases hc : (strEndsWithB g.path kDotJson && isStale cutoff g) with
    | true =>
      have hc2 := hc
      simp only [Bool.and_eq_true] at hc2
      obtain ⟨ha, hb⟩ := hc2
      simp [cleanupRun, hc, hOk.1, ihr, List.filter_cons, Except.map, ha, hb]
    | false =>
      have hor : strEndsWithB g.path kDotJson = false ∨ isStale cutoff g = false := by
        cases hA : strEndsWithB g.path kDotJson
        · exact Or.inl rfl
        · cases hB : isStale cutoff g
          · exact Or.inr rfl
          · rw [hA, hB] at hc; cases hc
      rcases hor with h | h <;>
        simp [cleanupRun, hc, ihr, List.filter_cons, h]

/-- C8 (amended): any exception aborts the whole Evict call with the error
result — an unreadable listing leaves the directory untouched, and a single
failing deletion stops the scan at that file: earlier stale artifacts are
already deleted, but the failing file and everything after it survive. -/
theorem c8_abort_on_failure :
    (∀ (now hours : Int) (files : List FileRec),
       cleanup_cache false now hours files = (files, .error ())) ∧
    (∀ (now hours : Int) (pre post : List FileRec) (f : FileRec),
       pre.all (fun g => g.unlinkOk) = true →
       (strEndsWithB f.path kDotJson && isStale (now - hours * 3600) f) = true →
       f.unlinkOk = false →
       cleanup_cache true now hours (pre ++ f :: post) =
         (pre.filter (fun g => !(strEndsWithB g.path kDotJson && isStale (now - hours * 3600) g))
            ++ f :: post,
          .error ())) := by
  constructor
  · intro now hours files
    rfl
  · intro now hours pre post f hOk hcond hfail
    exact cleanupRun_abort (now - hours * 3600) pre post f hOk hcond hfail

/-- Witness for C8 (amended): a concrete scan where a fresh file and an
earlier stale file precede the failing one; the stale predecessor is deleted,
the failing file and its successor survive, and the call errors. -/
theorem c8_abort_on_failure_witness :
    cleanup_cache true 3600 0 ([cexFileC, cexFileD] ++ cexFileA :: [cexFileB]) =
      ([cexFileC, cexFileA, cexFileB], .error ()) := by
  have h := c8_abort_on_failure.2 3600 0 [cexFileC, cexFileD] [cexFileB] cexFileA rfl rfl rfl
  rw [h]
  rfl

/-- Witness for C2: a directory with one stale and one fresh artifact; the
stale one is deleted and can no longer be loaded. -/
theorem c2_evict_witness :
    (cleanup_cache true 7200 1 [cexFileD, cexFileC]).2 = .ok 1 ∧
    (cleanup_cache true 7200 1 [cexFileD, cexFileC]).1 = [cexFileC] ∧
    loadData (cleanup_cache true 7200 1 [cexFileD, cexFileC]).1 cexFileD.path =
      .error .notFound := by
  obtain ⟨h1, h2, h3⟩ := c2_evict 7200 1 [cexFileD, cexFileC] rfl rfl (by decide)
  refine ⟨by rw [h1]; rfl, by rw [h2]; rfl, h3 cexFileD (List.mem_cons_self _ _) rfl⟩

/-! ## C1: store/load round-trip -/

theorem dictInsert_new (d : List (String × Json)) (k : String) (v : Json)
    (h : ∀ kv ∈ d, kv.1 ≠ k) : dictInsert d k v = d ++ [(k, v)] := by
  rw [dictInsert, if_neg]
  intro hany
  rw [List.any_eq_true] at hany
  obtain ⟨kv, hkv, hbeq⟩ := hany
  exact h kv hkv (by simpa using hbeq)

theorem foldl_dictInsert_nodup (kvs : List (String × Json)) :
    ∀ d : List (String × Json), ((d ++ kvs).map Prod.fst).Nodup →
      kvs.foldl (fun d kv => dictInsert d kv.1 kv.2) d = d ++ kvs := by
  induction kvs with
  | nil => intro d _; simp
  | cons kv rest ih =>
    intro d h
    have hnew : ∀ kv2 ∈ d, kv2.1 ≠ kv.1 := by
      intro kv2 hkv2 heq
      rw [List.map_append, List.nodup_append] at h
      exact h.2.2 (List.mem_map_of_mem Prod.fst hkv2) (by simp [heq])
    simp only [List.foldl_cons]
    rw [dictInsert_new d kv.1 kv.2 hnew]
    have h2 : (((d ++ [kv]) ++ rest).map Prod.fst).Nodup := by
      rw [List.append_assoc, List.singleton_append]
      exact h
    rw [ih (d ++ [kv]) h2, List.append_assoc, List.singleton_append]

theorem dedupKeys_nodup (kvs : List (String × Json)) (h : (kvs.map Prod.fst).Nodup) :
    dedupKeys kvs = kvs := by
  have := foldl_dictInsert_nodup kvs [] (by simpa using h)
  simpa [dedupKeys] using this

mutual
theorem canon_ofJson : ∀ j : Json, wfJson j = true → canonJson (pyOfJson j) = j
  | .null, _ => rfl
  | .bool _, _ => rfl
  | .num _, _ => rfl
  | .str _, _ => rfl
  | .arr xs, h => by
    have hx : wfJsonList xs = true := by simpa [wfJson] using h
    show Json.arr (canonList (pyOfList xs)) = Json.arr xs
    rw [canon_ofList xs hx]
  | .obj kvs, h => by
    have h2 : (decide (kvs.map Prod.fst).Nodup && wfJsonKVs kvs) = true := by
      simpa [wfJson] using h
    simp only [Bool.and_eq_true] at h2
    show Json.obj (dedupKeys (canonKVs (pyOfKVs kvs))) = Json.obj kvs
    rw [canon_ofKVs kvs h2.2, dedupKeys_nodup kvs (of_decide_eq_true h2.1)]
theorem canon_ofList : ∀ xs : List Json, wfJsonList xs = true → canonList (pyOfList xs) = xs
  | [], _ => rfl
  | x :: xs, h => by
    have h2 : wfJson x = true ∧ wfJsonList xs = true := by
      simpa [wfJsonList, Bool.and_eq_true] using h
    show canonJson (pyOfJson x) :: canonList (pyOfList xs) = x :: xs
    rw [canon_ofJson x h2.1, canon_ofList xs h2.2]
theorem canon_ofKVs : ∀ kvs : List (String × Json), wfJsonKVs kvs = true →
    canonKVs (pyOfKVs kvs) = kvs
  | [], _ => rfl
  | (k, v) :: kvs, h => by
    have h2 : wfJson v = true ∧ wfJsonKVs kvs = true := by
      simpa [wfJsonKVs, Bool.and_eq_true] using h
    show (keyStr (.str k), canonJson (pyOfJson v)) :: canonKVs (pyOfKVs kvs) = (k, v) :: kvs
    rw [canon_ofJson v h2.1, canon_ofKVs kvs h2.2]
    rfl
end

/-- C1: storing any Python value and loading the returned handle yields the
value's canonical JSON encoding (datetimes coerced to strings, non-string
dict keys to strings); on values that are already canonical JSON with
duplicate-free object keys, that encoding is the identity, so the round-trip
returns the stored value itself. -/
theorem c1_roundtrip :
    (∀ (dir : List FileRec) (x : PyVal) (pfx : String) (ts : Int) (uid : String),
       loadData (store_data dir x pfx ts uid).1 (store_data dir x pfx ts uid).2 =
         .ok (canonJson x)) ∧
    (∀ j : Json, wfJson j = true → canonJson (pyOfJson j) = j) := by
  constructor
  · intro dir x pfx ts uid
    simp [store_data, loadData, List.find?]
  · exact canon_ofJson

/-- An ISO-like datetime rendering. -/
def isoEx : String := "2025-01-01 00:00:00"

/-- A stored Python value exercising both coercions: an int dict key and a
datetime value. -/
def exPy : PyVal := .dict (.cons (.int 1) (.datetime isoEx) .nil)

/-- The string form of the integer key 1. -/
def kOne : String := "1"

/-- A random-suffix stand-in. -/
def uidEx : String := "abcd1234"

/-- Witness for C1: the round-trip of a dict with an int key and a datetime
value yields its canonical JSON encoding, and a canonical JSON object is
reproduced exactly. -/
theorem c1_roundtrip_witness :
    loadData (store_data [] exPy kSeries 5 uidEx).1 (store_data [] exPy kSeries 5 uidEx).2 =
      .ok (.obj [(kOne, .str isoEx)]) ∧
    canonJson (pyOfJson (.obj [(kEvents, .num 3)])) = .obj [(kEvents, .num 3)] := by
  constructor
  · rw [c1_roundtrip.1 [] exPy kSeries 5 uidEx]
    rfl
  · exact c1_roundtrip.2 (.obj [(kEvents, .num 3)]) (by rfl)

/-! ## C7: unknown analysis mode -/

/-- C7: for a handle that resolves to a stored artifact, any analysis mode
outside summary/stats/trends makes `analyze_data` fail with the
unknown-analysis-type error dict, whatever the three analyzers are — so no
analyzer is invoked. -/
theorem c7_unknown_mode (dir : List FileRec) (filepath ty : String)
    (hfp : (dir.find? (fun f => f.path == filepath)).isSome = true)
    (h1 : ty ≠ "summary") (h2 : ty ≠ "stats") (h3 : ty ≠ "trends") :
    ∀ (f₁ : Json → Except PyErr Summary) (f₂ : Json → Except PyErr Stats)
      (f₃ : Json → Except PyErr Trends),
      analyze_data_with f₁ f₂ f₃ dir filepath ty = .error (msgUnknownType ty) := by
  intro f₁ f₂ f₃
  obtain ⟨f, hf⟩ := Option.isSome_iff_exists.mp hfp
  have hl : loadData dir filepath = .ok f.content := by
    rw [loadData, hf]
  simp [analyze_data_with, hl, h1, h2, h3]

/-- A bogus analysis mode. -/
def tyBogus : String := "bogus"

/-- A one-artifact directory for the C7 witness. -/
def exDir7 : List FileRec := [⟨pA, 0, .null, true⟩]

/-- Witness for C7: with the real analyzers plugged in, analysing an existing
artifact under mode `bogus` returns the unknown-analysis-type error. -/
theorem c7_unknown_mode_witness :
    analyze_data tNow exDir7 pA tyBogus = .error (msgUnknownType tyBogus) :=
  c7_unknown_mode exDir7 pA tyBogus (by rfl) (by decide) (by decide) (by decide)
    generate_summary (calculate_stats tNow) (analyze_trends tNow)

/-! ## C3 and C4: the Trend analyzer -/

theorem analyze_trends_first (now : String) (kvs : List (String × Json)) (s0 : Json)
    (rest : List Json) (hlk : lookupKV kvs kSeries = some (.arr (s0 :: rest))) :
    analyze_trends now (.obj kvs) = trendsFromSeries now s0 := by
  simp [analyze_trends, pyContains, pyGetItem, pyTruthy, pyIndex, hlk]

theorem map_num_getLastD (l : List Rat) : ∀ q : Rat,
    (l.map Json.num).getLastD (Json.num q) = Json.num (l.getLastD q) := by
  induction l with
  | nil => intro q; rfl
  | cons x xs ih =>
    intro q
    rw [List.map_cons, List.getLastD_cons, List.getLastD_cons]
    exact ih x

theorem trendsFromSeries_compute (now : String) (skvs : List (String × Json)) (ps : List Json)
    (v0 v1 : Rat) (vs : List Rat)
    (hlk : lookupKV skvs kPointlist = some (.arr ps))
    (hwf : ps.all wfPointB = true)
    (hvals : ps.filterMap pointVal = v0 :: v1 :: vs) :
    trendsFromSeries now (.obj skvs) =
      (if v0 = 0 then .ok { trend_direction := "stable", analyzed_at := now }
       else
        .ok { trend_direction :=
                if 10 < ((v1 :: vs).getLastD v0 - v0) / v0 * 100 then "increasing"
                else if ((v1 :: vs).getLastD v0 - v0) / v0 * 100 < -10 then "decreasing"
                else "stable",
              analyzed_at := now,
              change_percentage := some (round2 (((v1 :: vs).getLastD v0 - v0) / v0 * 100)) }) := by
  have hlen2 : 2 ≤ (ps.filterMap pointVal).length := by rw [hvals]; simp
  have hple := List.length_filterMap_le pointVal ps
  have hpslen : ¬ ps.length ≤ 1 := by omega
  have hfv := filteredValues_wf ps hwf
  rw [hvals] at hfv
  have hlast : ((v0 :: v1 :: vs).map Json.num).getLastD Json.null =
      Json.num ((v1 :: vs).getLastD v0) := by
    rw [List.map_cons, List.getLastD_cons]
    exact map_num_getLastD (v1 :: vs) v0
  simp only [trendsFromSeries, pyContains, pyGetItem, pyLen, hlk, Option.isSome_some,
    if_true, hfv]
  rw [if_neg hpslen]
  simp only [List.length_map, List.length_cons]
  rw [if_neg (by omega)]
  simp only [List.headD_cons, List.map_cons, hlast]
  by_cases hv0 : v0 = 0
  · rw [if_pos hv0]
    have : pyNeqZero (Json.num v0) = false := by simp [pyNeqZero, asNum, hv0]
    rw [this]
    simp
  · rw [if_neg hv0]
    have hnz : pyNeqZero (Json.num v0) = true := by simp [pyNeqZero, asNum, hv0]
    rw [hnz]
    have hx : (v1 :: vs).getLast? = some ((v1 :: vs).getLast (by simp)) :=
      List.getLast?_eq_getLast _ _
    have hmap : (Json.num v1 :: List.map Json.num vs).getLast? =
        some (Json.num ((v1 :: vs).getLast (by simp))) := by
      rw [← List.map_cons, List.getLast?_map, hx]
      rfl
    simp [asNumE, asNum, hmap, hx]

/-- The pointlist of the first series entry of an artifact, read directly off
the JSON shape (the raw points the claim speaks about). -/
def firstSeriesPointlist (data : Json) : List Json :=
  match data with
  | .obj kvs =>
    match lookupKV kvs kSeries with
    | some (.arr (s :: _)) =>
      match s with
      | .obj skvs =>
        match lookupKV skvs kPointlist with
        | some (.arr ps) => ps
        | _ => []
      | _ => []
    | _ => []
  | _ => []

/-- The artifact `{"series": [{"pointlist": [[1,100],[2,null]]}]}`. -/
def cexTrendRaw : List (String × Json) :=
  [(kSeries, .arr [.obj [(kPointlist, .arr [.arr [.num 1, .num 100],
                                            .arr [.num 2, .null]])]])]

/-- Counterexample to C3 as stated: the first series' pointlist has more than
one point and its first raw value is 100 which is non-zero, so the claim
demands a computed change percentage from the raw first and last points; but
the code null-filters the values first, is left with a single usable value,
and reports "stable" with no percentage field. -/
theorem c3_raw_counterexample :
    (firstSeriesPointlist (.obj cexTrendRaw)).length = 2 ∧
    pointVal ((firstSeriesPointlist (.obj cexTrendRaw)).headD .null) = some 100 ∧
    (100 : Rat) ≠ 0 ∧
    analyze_trends tNow (.obj cexTrendRaw) =
      .ok { trend_direction := "stable", analyzed_at := tNow, change_percentage := none } :=
  ⟨rfl, rfl, by norm_num, rfl⟩

/-- C3 (amended): when the first series' pointlist carries at least two
non-null values, the Trend analyzer takes the first and last values of the
null-filtered value sequence and reports
`change_pct = (last - first) / first * 100` (rounded to 2 decimals) whenever
the first filtered value is non-zero; and series entries after the first
never influence the result. -/
theorem c3_trend_endpoints :
    (∀ (now : String) (kvs skvs : List (String × Json)) (rest ps : List Json)
       (v0 v1 : Rat) (vs : List Rat),
       lookupKV kvs kSeries = some (.arr (.obj skvs :: rest)) →
       lookupKV skvs kPointlist = some (.arr ps) →
       ps.all wfPointB = true →
       ps.filterMap pointVal = v0 :: v1 :: vs →
       v0 ≠ 0 →
       ∃ r, analyze_trends now (.obj kvs) = .ok r ∧
         r.change_percentage = some (round2 (((v1 :: vs).getLastD v0 - v0) / v0 * 100))) ∧
    (∀ (now : String) (kvs kvs2 : List (String × Json)) (s0 : Json) (rest rest2 : List Json),
       lookupKV kvs kSeries = some (.arr (s0 :: rest)) →
       lookupKV kvs2 kSeries = some (.arr (s0 :: rest2)) →
       analyze_trends now (.obj kvs) = analyze_trends now (.obj kvs2)) := by
  constructor
  · intro now kvs skvs rest ps v0 v1 vs hlk hpl hwf hvals hv0
    rw [analyze_trends_first now kvs (.obj skvs) rest hlk,
      trendsFromSeries_compute now skvs ps v0 v1 vs hpl hwf hvals, if_neg hv0]
    exact ⟨_, rfl, rfl⟩
  · intro now kvs kvs2 s0 rest rest2 hlk hlk2
    rw [analyze_trends_first now kvs s0 rest hlk,
      analyze_trends_first now kvs2 s0 rest2 hlk2]

theorem trendDir_spec (change : Rat) :
    ((if 10 < change then "increasing" else if change < -10 then "decreasing" else "stable") =
        "increasing" ↔ 10 < change) ∧
    ((if 10 < change then "increasing" else if change < -10 then "decreasing" else "stable") =
        "decreasing" ↔ change < -10) ∧
    ((if 10 < change then "increasing" else if change < -10 then "decreasing" else "stable") =
        "stable" ↔ (change ≤ 10 ∧ -10 ≤ change)) := by
  by_cases h10 : 10 < change
  · rw [if_pos h10]
    refine ⟨by simp [h10], ?_, ?_⟩
    · constructor
      · intro heq; exact absurd heq (by decide)
      · intro h; exact absurd h (by linarith)
    · constructor
      · intro heq; exact absurd heq (by decide)
      · rintro ⟨h, -⟩; exact absurd h10 (not_lt.mpr h)
  · by_cases hm : change < -10
    · rw [if_neg h10, if_pos hm]
      refine ⟨?_, by simp [hm], ?_⟩
      · constructor
        · intro heq; exact absurd heq (by decide)
        · intro h; exact absurd h h10
      · constructor
        · intro heq; exact absurd heq (by decide)
        · rintro ⟨-, h⟩; exact absurd hm (not_lt.mpr h)
    · rw [if_neg h10, if_neg hm]
      refine ⟨?_, ?_, ?_⟩
      · constructor
        · intro heq; exact absurd heq (by decide)
        · intro h; exact absurd h h10
      · constructor
        · intro heq; exact absurd heq (by decide)
        · intro h; exact absurd h hm
      · constructor
        · intro _; exact ⟨le_of_not_lt h10, by linarith [not_lt.mp hm]⟩
        · intro _; rfl

/-- C4: whenever the Trend analyzer has at least two usable (non-null) values,
the classification is by strict comparison of the unrounded change percentage
against plus/minus 10 — "increasing" exactly when `change_pct > 10`,
"decreasing" exactly when `change_pct < -10`, "stable" otherwise — with the
rounded percentage present even when stable; and when the first usable value
is 0, the direction is "stable" with no percentage field. -/
theorem c4_trend_classification (now : String) (kvs skvs : List (String × Json))
    (rest ps : List Json) (v0 v1 : Rat) (vs : List Rat) (r : Trends)
    (hlk : lookupKV kvs kSeries = some (.arr (.obj skvs :: rest)))
    (hpl : lookupKV skvs kPointlist = some (.arr ps))
    (hwf : ps.all wfPointB = true)
    (hvals : ps.filterMap pointVal = v0 :: v1 :: vs)
    (hr : analyze_trends now (.obj kvs) = .ok r) :
    (v0 ≠ 0 →
      r.change_percentage = some (round2 (((v1 :: vs).getLastD v0 - v0) / v0 * 100)) ∧
      (r.trend_direction = "increasing" ↔ 10 < ((v1 :: vs).getLastD v0 - v0) / v0 * 100) ∧
      (r.trend_direction = "decreasing" ↔ ((v1 :: vs).getLastD v0 - v0) / v0 * 100 < -10) ∧
      (r.trend_direction = "stable" ↔
        (((v1 :: vs).getLastD v0 - v0) / v0 * 100 ≤ 10 ∧
         -10 ≤ ((v1 :: vs).getLastD v0 - v0) / v0 * 100))) ∧
    (v0 = 0 → r.trend_direction = "stable" ∧ r.change_percentage = none) := by
  rw [analyze_trends_first now kvs (.obj skvs) rest hlk,
    trendsFromSeries_compute now skvs ps v0 v1 vs hpl hwf hvals] at hr
  constructor
  · intro hv0
    rw [if_neg hv0] at hr
    cases hr
    obtain ⟨hi, hd, hs⟩ := trendDir_spec (((v1 :: vs).getLastD v0 - v0) / v0 * 100)
    exact ⟨rfl, hi, hd, hs⟩
  · intro hv0
    rw [if_pos hv0] at hr
    cases hr
    exact ⟨rfl, rfl⟩

/-- Rounding an integer-valued percentage changes nothing. -/
theorem round2_int (n : Int) : round2 ((n : Rat)) = n := by
  have h1 : ((n : Rat) * 100) = ((100 * n : Int) : Rat) := by push_cast; ring
  have hfl : ((100 * n : Int) : Rat).floor = 100 * n := by
    have h2 : ((100 * n : Int) : Rat).floor = ⌊((100 * n : Int) : Rat)⌋ := rfl
    rw [h2, Int.floor_intCast]
  unfold round2 roundHalfEven
  rw [h1, hfl]
  norm_num

/-- The pointlist `[[1,100],[2,150]]` of the spec's increasing scenario. -/
def exTrendIncPS : List Json := [.arr [.num 1, .num 100], .arr [.num 2, .num 150]]

/-- Its series entry bindings. -/
def exTrendIncSKVs : List (String × Json) := [(kPointlist, .arr exTrendIncPS)]

/-- The increasing-scenario artifact bindings. -/
def exTrendIncKVs : List (String × Json) := [(kSeries, .arr [.obj exTrendIncSKVs])]

/-- The same artifact with a second series entry appended. -/
def exTrendIncKVs2 : List (String × Json) :=
  [(kSeries, .arr [.obj exTrendIncSKVs, .obj [(kPointlist, .arr [.arr [.num 1, .num 7]])]])]

/-- The zero-first-value scenario `[[1,0],[2,10]]`. -/
def exTrendZeroPS : List Json := [.arr [.num 1, .num 0], .arr [.num 2, .num 10]]

/-- Its series entry bindings. -/
def exTrendZeroSKVs : List (String × Json) := [(kPointlist, .arr exTrendZeroPS)]

/-- The zero-scenario artifact bindings. -/
def exTrendZeroKVs : List (String × Json) := [(kSeries, .arr [.obj exTrendZeroSKVs])]

/-- Concrete evaluation: the increasing scenario classifies as increasing
with a 50 percent change. -/
theorem analyze_trends_inc_eval :
    analyze_trends tNow (.obj exTrendIncKVs) =
      .ok { trend_direction := "increasing", analyzed_at := tNow,
            change_percentage := some 50 } := by
  rw [analyze_trends_first tNow exTrendIncKVs (.obj exTrendIncSKVs) [] rfl,
    trendsFromSeries_compute tNow exTrendIncSKVs exTrendIncPS 100 150 [] rfl rfl rfl,
    if_neg (by norm_num : ¬(100 : Rat) = 0)]
  have hch : (([150] : List Rat).getLastD 100 - 100) / (100 : Rat) * 100 = 50 := by
    norm_num [List.getLastD]
  rw [hch, if_pos (by norm_num : (10 : Rat) < 50)]
  have h50 : round2 50 = 50 := by
    have := round2_int 50
    norm_num at this
    exact this
  rw [h50]

/-- Concrete evaluation: the zero-first-value scenario stays stable with no
percentage field. -/
theorem analyze_trends_zero_eval :
    analyze_trends tNow (.obj exTrendZeroKVs) =
      .ok { trend_direction := "stable", analyzed_at := tNow } := by
  rw [analyze_trends_first tNow exTrendZeroKVs (.obj exTrendZeroSKVs) [] rfl,
    trendsFromSeries_compute tNow exTrendZeroSKVs exTrendZeroPS 0 10 [] rfl rfl rfl,
    if_pos rfl]

/-- Witness for C3: the increasing scenario has its percentage computed from
the filtered endpoints, and appending a second series entry leaves the
result unchanged. -/
theorem c3_trend_endpoints_witness :
    (∃ r, analyze_trends tNow (.obj exTrendIncKVs) = .ok r ∧
       r.change_percentage =
         some (round2 ((([150] : List Rat).getLastD 100 - 100) / 100 * 100))) ∧
    analyze_trends tNow (.obj exTrendIncKVs) = analyze_trends tNow (.obj exTrendIncKVs2) :=
  ⟨c3_trend_endpoints.1 tNow exTrendIncKVs exTrendIncSKVs [] exTrendIncPS 100 150 []
     rfl rfl rfl rfl (by norm_num),
   c3_trend_endpoints.2 tNow exTrendIncKVs exTrendIncKVs2 (.obj exTrendIncSKVs) []
     [.obj [(kPointlist, .arr [.arr [.num 1, .num 7]])]] rfl rfl⟩

/-- Witness for C4: at the increasing scenario the classification forces
`change_pct > 10`, and at the zero scenario the result is stable with no
percentage field. -/
theorem c4_trend_classification_witness :
    (10 : Rat) < (([150] : List Rat).getLastD 100 - 100) / 100 * 100 ∧
    ({ trend_direction := "stable", analyzed_at := tNow : Trends }.trend_direction = "stable" ∧
     { trend_direction := "stable", analyzed_at := tNow : Trends }.change_percentage = none) := by
  have hinc := c4_trend_classification tNow exTrendIncKVs exTrendIncSKVs [] exTrendIncPS
    100 150 [] _ rfl rfl rfl rfl analyze_trends_inc_eval
  have hzero := c4_trend_classification tNow exTrendZeroKVs exTrendZeroSKVs [] exTrendZeroPS
    0 10 [] _ rfl rfl rfl rfl analyze_trends_zero_eval
  exact ⟨((hinc.1 (by norm_num)).2.1).mp rfl, hzero.2 rfl⟩

/-! ## C6: the Summary classification branches -/

/-- Totalised membership: the Python test's value when it succeeds, false
when it raises (used only to describe branch selection; faulting inputs never
produce a successful summary anyway). -/
def containsB (k : String) (v : Json) : Bool :=
  match pyContains k v with
  | .ok b => b
  | .error _ => false

/-- The classification `_generate_summary` assigns, written as a first-match
cascade: Python membership of `series` selects metrics; otherwise a
non-empty list whose first element contains `overall_state` selects
monitors; otherwise membership of `events` selects events; otherwise the
artifact is unknown. -/
def summaryBranch (data : Json) : String :=
  if containsB kSeries data then "metrics"
  else
    match data with
    | .arr (m0 :: _) => if containsB kOverallState m0 then "monitors" else "unknown"
    | _ => if containsB kEvents data then "events" else "unknown"

theorem generate_summary_branch (data : Json) (r : Summary)
    (h : generate_summary data = .ok r) :
    r.data_type = summaryBranch data ∧
    (summaryBranch data = "unknown" → r.record_count = 0 ∧ r.key_insights = []) := by
  cases data with
  | null => simp [generate_summary, pyContains] at h
  | bool b => simp [generate_summary, pyContains] at h
  | num q => simp [generate_summary, pyContains] at h
  | str s =>
    by_cases hb : strContainsB s kSeries = true
    · simp [generate_summary, pyContains, pyGetItem, hb] at h
    · rw [Bool.not_eq_true] at hb
      by_cases he : strContainsB s kEvents = true
      · simp [generate_summary, pyContains, pyGetItem, hb, he] at h
      · rw [Bool.not_eq_true] at he
        simp only [generate_summary, pyContains, hb, he, Except.ok.injEq] at h
        subst h
        simp [summaryBranch, containsB, pyContains, hb, he]
  | arr xs =>
    by_cases hb : xs.any (fun x => jsonEqStr x kSeries) = true
    · simp [generate_summary, pyContains, pyGetItem, hb] at h
    · rw [Bool.not_eq_true] at hb
      cases xs with
      | nil =>
        simp only [generate_summary, pyContains, List.any_nil, Except.ok.injEq] at h
        subst h
        simp [summaryBranch, containsB, pyContains]
      | cons m0 rest =>
        have hser : pyContains kSeries (Json.arr (m0 :: rest)) = .ok false := by
          simp [pyContains, hb]
        cases hos : pyContains kOverallState m0 with
        | error e =>
          simp [generate_summary, hser, hos] at h
        | ok b2 =>
          cases b2 with
          | false =>
            simp only [generate_summary, hser, hos, Except.ok.injEq] at h
            subst h
            simp [summaryBranch, containsB, hser, hos]
          | true =>
            cases hca : countAlerting (m0 :: rest) with
            | error e =>
              simp [generate_summary, hser, hos, hca] at h
            | ok n =>
              simp only [generate_summary, hser, hos, hca, Except.ok.injEq] at h
              subst h
              refine ⟨by simp [summaryBranch, containsB, hser, hos], ?_⟩
              intro heq
              rw [summaryBranch, if_neg (by simp [containsB, hser])] at heq
              simp only [containsB, hos, if_true] at heq
              exact absurd heq (by decide)
  | obj kvs =>
    cases hlk : lookupKV kvs kSeries with
    | some sv =>
      have hser : pyContains kSeries (Json.obj kvs) = .ok true := by
        simp [pyContains, hlk]
      have hget : pyGetItem (Json.obj kvs) kSeries = .ok sv := by
        simp [pyGetItem, hlk]
      cases hlen : pyLen sv with
      | error e =>
        simp [generate_summary, hser, hget, hlen] at h
      | ok rc =>
        cases hit : pyIter sv with
        | error e =>
          simp [generate_summary, hser, hget, hlen, hit] at h
        | ok ss =>
          cases hsum : sumPointCounts ss with
          | error e =>
            simp [generate_summary, hser, hget, hlen, hit, hsum] at h
          | ok total =>
            simp only [generate_summary, hser, hget, hlen, hit, hsum, Except.ok.injEq] at h
            subst h
            refine ⟨by simp [summaryBranch, containsB, hser], ?_⟩
            intro heq
            rw [summaryBranch, if_pos (by simp [containsB, hser])] at heq
            · exact absurd heq (by decide)
            · intro m0 rest hcon
              cases hcon
    | none =>
      have hser : pyContains kSeries (Json.obj kvs) = .ok false := by
        simp [pyContains, hlk]
      cases hev : lookupKV kvs kEvents with
      | some ev =>
        have hevc : pyContains kEvents (Json.obj kvs) = .ok true := by
          simp [pyContains, hev]
        have hgev : pyGetItem (Json.obj kvs) kEvents = .ok ev := by
          simp [pyGetItem, hev]
        cases hlen : pyLen ev with
        | error e =>
          simp [generate_summary, hser, hevc, hgev, hlen] at h
        | ok rc =>
          simp only [generate_summary, hser, hevc, hgev, hlen, Except.ok.injEq] at h
          subst h
          refine ⟨by simp [summaryBranch, containsB, hser, hevc], ?_⟩
          intro heq
          rw [summaryBranch, if_neg (by simp [containsB, hser])] at heq
          · simp only [containsB, hevc, if_true] at heq
            exact absurd heq (by decide)
          · intro m0 rest hcon
            cases hcon
      | none =>
        have hevc : pyContains kEvents (Json.obj kvs) = .ok false := by
          simp [pyContains, hev]
        simp only [generate_summary, hser, hevc, Except.ok.injEq] at h
        subst h
        simp [summaryBranch, containsB, hser, hevc]

/-- The `id` key of the events example. -/
def kId : String := "id"

/-- The events-scenario artifact bindings:
`{"events": [{"id":1},{"id":2},{"id":3}]}`. -/
def exEventsKVs : List (String × Json) :=
  [(kEvents, .arr [.obj [(kId, .num 1)], .obj [(kId, .num 2)], .obj [(kId, .num 3)]])]

/-- Counterexample to C6 as stated: on the scalar artifact `42` the claim's
cascade (no series/events key, not a list) selects the unknown branch with
record_count 0, but the code raises a `TypeError` testing membership on an
int and produces no result.  On the list artifact `["series"]` — which has
no `series` key — the claim again demands the unknown branch, but the code's
membership test finds the string element, fires the metrics branch, and then
raises indexing the list with a string key. -/
theorem c6_branch_counterexample :
    summaryBranch (.num 42) = "unknown" ∧
    generate_summary (.num 42) = .error .typeError ∧
    summaryBranch (.arr [.str kSeries]) = "metrics" ∧
    generate_summary (.arr [.str kSeries]) = .error .typeError :=
  ⟨rfl, rfl, rfl, rfl⟩

/-- C6 (amended): on every artifact on which the Summary analyzer does not
raise, the reported data_type is chosen by the first matching branch, in
order — Python membership of `series` (key for objects, element for lists,
substring for strings) selects metrics; else a non-empty list whose first
element contains `overall_state` selects monitors; else membership of
`events` selects events; else the artifact is unknown with record_count 0
and no insights.  Membership successes over ill-typed shapes (a scalar
artifact, a list containing the string "series") instead raise, surfaced by
the dispatcher as an error result.  The events scenario yields data_type
"events" with record_count 3. -/
theorem c6_branch_determination :
    (∀ (data : Json) (r : Summary), generate_summary data = .ok r →
       r.data_type = summaryBranch data ∧
       (summaryBranch data = "unknown" → r.record_count = 0 ∧ r.key_insights = [])) ∧
    generate_summary (.obj exEventsKVs) =
      .ok { data_type := "events", record_count := 3, key_insights := [] } :=
  ⟨generate_summary_branch, by rfl⟩

/-- Witness for C6: the events scenario is classified by the events branch. -/
theorem c6_branch_determination_witness :
    ({ data_type := "events", record_count := 3, key_insights := [] : Summary }.data_type =
      summaryBranch (.obj exEventsKVs)) :=
  (c6_branch_determination.1 (.obj exEventsKVs)
    { data_type := "events", record_count := 3, key_insights := [] } rfl).1

/-! ## C9: absent versus malformed series fields -/

/-- A series entry that is an object without a `pointlist` key. -/
def noPointlistObj (s : Json) : Bool :=
  match s with
  | .obj skvs => (lookupKV skvs kPointlist).isNone
  | _ => false

theorem flatValues_nil (ss : List Json) (h : ∀ s ∈ ss, seriesValues s = []) :
    flatValues ss = [] := by
  induction ss with
  | nil => rfl
  | cons s rest ih =>
    have hs := h s (List.mem_cons_self s rest)
    have hr := ih (fun x hx => h x (List.mem_cons.mpr (Or.inr hx)))
    simp [flatValues, List.flatten] at hr ⊢
    exact ⟨hs, hr⟩

/-- Counterexample to C9 as stated: for the artifact `{"series": 0}` —
whose `series` field is present but malformed — the claim says the
extraction treats it as zero series and the analyzers succeed, but both the
Statistics and the Summary analyzers raise a `TypeError` (iterating,
respectively taking `len` of, the integer 0). -/
theorem c9_malformed_counterexample :
    calculate_stats tNow (.obj [(kSeries, .num 0)]) = .error .typeError ∧
    generate_summary (.obj [(kSeries, .num 0)]) = .error .typeError ∧
    analyze_trends tNow (.obj [(kSeries, .arr [.num 5])]) = .error .typeError :=
  ⟨rfl, rfl, rfl⟩

/-- C9 (amended): an absent `series` key, an absent `pointlist` key, or
series entries without pointlists are treated as "zero series" by the
Statistics and Trend analyzers (timestamp-only statistics, stable trend);
but a `series`/`pointlist` field of the wrong type makes the analyzers
raise a `TypeError` instead, which the dispatcher surfaces as an error
result. -/
theorem c9_absent_vs_malformed :
    (∀ (now : String) (kvs : List (String × Json)), lookupKV kvs kSeries = none →
       calculate_stats now (.obj kvs) = .ok { calculated_at := now } ∧
       analyze_trends now (.obj kvs) =
         .ok { trend_direction := "stable", analyzed_at := now }) ∧
    (∀ (now : String) (kvs skvs : List (String × Json)) (rest : List Json),
       lookupKV kvs kSeries = some (.arr (.obj skvs :: rest)) →
       lookupKV skvs kPointlist = none →
       analyze_trends now (.obj kvs) =
         .ok { trend_direction := "stable", analyzed_at := now }) ∧
    (∀ (now : String) (kvs : List (String × Json)) (ss : List Json),
       lookupKV kvs kSeries = some (.arr ss) →
       ss.all noPointlistObj = true →
       calculate_stats now (.obj kvs) = .ok { calculated_at := now }) ∧
    calculate_stats tNow (.obj [(kSeries, .bool true)]) = .error .typeError := by
  refine ⟨?_, ?_, ?_, rfl⟩
  · intro now kvs hlk
    refine ⟨calculate_stats_no_series now kvs hlk, ?_⟩
    simp [analyze_trends, pyContains, hlk]
  · intro now kvs skvs rest hlk hpl
    rw [analyze_trends_first now kvs (.obj skvs) rest hlk]
    simp [trendsFromSeries, pyContains, hpl]
  · intro now kvs ss hlk hall
    rw [List.all_eq_true] at hall
    have hwf : ss.all wfSeriesB = true := by
      rw [List.all_eq_true]
      intro s hs
      have := hall s hs
      match s, this with
      | .obj skvs, hthis =>
        simp only [noPointlistObj, Option.isNone_iff_eq_none] at hthis
        simp [wfSeriesB, hthis]
    have hfv : flatValues ss = [] := by
      apply flatValues_nil
      intro s hs
      have := hall s hs
      match s, this with
      | .obj skvs, hthis =>
        simp only [noPointlistObj, Option.isNone_iff_eq_none] at hthis
        simp [seriesValues, hthis]
    have hchar := calculate_stats_wf now kvs ss hlk hwf
    rw [hfv] at hchar
    exact hchar

/-- Witness for C9 (amended): an object without a `series` key gives
timestamp-only statistics and a stable trend. -/
theorem c9_absent_vs_malformed_witness :
    calculate_stats tNow (.obj [(kOne, .null)]) = .ok { calculated_at := tNow } ∧
    analyze_trends tNow (.obj [(kOne, .null)]) =
      .ok { trend_direction := "stable", analyzed_at := tNow } :=
  c9_absent_vs_malformed.1 tNow [(kOne, .null)] rfl

end Server
